import Mathlib

/-! libPOG: socket/address abstraction and the plain HTTP client.

A shallow embedding of `src/socket.h`, `src/socket.cpp`, `src/dataBuffer.h`,
`src/httpClient.h` and `src/httpClient.cpp`.

Conventions of the embedding.

* The host is a little-endian POSIX machine (Linux on x86-64): `AF_INET = 2`,
  `AF_INET6 = 10`, `AF_LOCAL = 1`, `SOCK_STREAM = 1`, `SOCK_DGRAM = 2`,
  `sizeof (sockaddr) = 16`, `sizeof (sockaddr_in6) = 28`.
* The union `Address::osAddress` is a block of 28 bytes; every member of the
  union is a view of these bytes at its offset: `_validFlag` and `sa_family`
  are the 16-bit word at 0, `sin_port`/`sin6_port` the 16-bit word at 2,
  `sin_addr` the 4 bytes at 4 and `sin6_addr` the 16 bytes at 8.
* `Address result;` initialises `_validFlag` only; the other 26 bytes are
  whatever the stack holds. They are an explicit argument `mem`.
* The C library and the kernel are not part of the program. What they answer
  is an argument: a record `Os` for the pure library calls, and the value
  returned by each system call for the socket operations. Every socket
  operation also returns the list of system calls it issued.
-/

namespace Net

/-! ## Platform constants and byte-level helpers -/

def AF_UNSPEC : Nat := 0
def AF_LOCAL : Nat := 1
def AF_INET : Nat := 2
def AF_INET6 : Nat := 10
def SOCK_STREAM : Nat := 1
def SOCK_DGRAM : Nat := 2
def IPPROTO_TCP : Nat := 6
def IPPROTO_UDP : Nat := 17
def INADDR_ANY : Nat := 0
def INET6_ADDRSTRLEN : Nat := 46

/-- The macro `INVALID_SOCKET` of `socket.h`. -/
def INVALID_SOCKET : Int := -1

/-- The macro `SOCKET_ERROR` of `socket.h`. -/
def SOCKET_ERROR : Int := -1

/-- Size in bytes of `struct sockaddr`. -/
def sizeofSockaddr : Nat := 16

/-- Size in bytes of `struct sockaddr_in6`, the largest member of the union. -/
def sizeofOsAddress : Nat := 28

/-- Byte swap of a 16-bit value: `htons` on a little-endian host. -/
def htons (x : Nat) : Nat := (x % 256) * 256 + (x / 256) % 256

/-- Byte swap of a 16-bit value: `ntohs` on a little-endian host. -/
def ntohs (x : Nat) : Nat := (x % 256) * 256 + (x / 256) % 256

/-- Store the bytes `bs` at offset `off` of the block `block`. -/
def writeBytes (block : List Nat) (off : Nat) (bs : List Nat) : List Nat :=
  block.take off ++ bs ++ block.drop (off + bs.length)

/-- Load `n` bytes at offset `off`. -/
def readBytes (block : List Nat) (off n : Nat) : List Nat :=
  (block.drop off).take n

/-- Load the 16-bit word at offset `off` (little-endian host). -/
def readU16 (block : List Nat) (off : Nat) : Nat :=
  block.getD off 0 + 256 * block.getD (off + 1) 0

/-- Store a 16-bit word at offset `off` (little-endian host). -/
def writeU16 (block : List Nat) (off : Nat) (v : Nat) : List Nat :=
  writeBytes block off [v % 256, (v / 256) % 256]

/-- Store a 32-bit word at offset `off` (little-endian host). -/
def writeU32 (block : List Nat) (off : Nat) (v : Nat) : List Nat :=
  writeBytes block off [v % 256, (v / 256) % 256, (v / 65536) % 256, (v / 16777216) % 256]

/-! ## The C library as an argument -/

/-- Answers of the C library to the pure calls the program makes.

* `inet_pton af text` is `some bytes` when `inet_pton` returns 1 and has
  stored `bytes` at the destination, `none` when it returns 0 or -1.
* `inet_ntop af bytes` is `some text` when `inet_ntop` succeeds, `none` when
  it returns a null pointer.
* `getaddrinfo node socktype family` is the return code together with the
  `ai_addr` blocks of the candidates, in order (service is a null pointer). -/
structure Os where
  inet_pton : Nat → String → Option (List Nat)
  inet_ntop : Nat → List Nat → Option String
  getaddrinfo : String → Nat → Nat → Int × List (List Nat)

/-! ## `Protocol`, `Address::Family` -/

/-- The enumeration `Net::Protocol`. -/
inductive Protocol where
  | None
  | TCP
  | UDP
deriving DecidableEq, Repr

/-- Underlying value of a `Protocol`. -/
def Protocol.toNat : Protocol → Nat
  | Protocol.None => 0
  | Protocol.TCP => SOCK_STREAM
  | Protocol.UDP => SOCK_DGRAM

/-- The enumeration `Address::Family : uint8_t`, as its underlying value: a
`static_cast` can produce a value that is none of the enumerators. -/
structure Family where
  val : Nat
deriving DecidableEq, Repr

def Family.None : Family := ⟨AF_UNSPEC⟩
def Family.Local : Family := ⟨AF_LOCAL⟩
def Family.IPv4 : Family := ⟨AF_INET⟩
def Family.IPv6 : Family := ⟨AF_INET6⟩

/-! ## `Address` -/

/-- The constant `Address::invalidPort`. -/
def Address.invalidPort : Nat := 0

/-- The constant `Address::invalidFlag`. -/
def Address.invalidFlag : Nat := 0xffff

/-- The class `Address`: the 28 bytes of the union `osAddress`. -/
structure Address where
  osAddress : List Nat
deriving DecidableEq, Repr

/-- The declaration `Address result;`: `_validFlag = invalidFlag`, the other 26
bytes are those found in memory, `mem i` at offset `i`. -/
def Address.uninit (mem : Nat → Nat) : Address :=
  ⟨[0xff, 0xff] ++ (List.range 26).map (fun i => mem (i + 2) % 256)⟩

/-- Read of `osAddress._validFlag`. -/
def Address._validFlag (a : Address) : Nat := readU16 a.osAddress 0

/-- Read of `osAddress.any.sa_family` and `osAddress.ipv4.sin_family`. -/
def Address.sa_family (a : Address) : Nat := readU16 a.osAddress 0

/-- Read of `osAddress.ipv4.sin_port`. -/
def Address.sin_port (a : Address) : Nat := readU16 a.osAddress 2

/-- Read of `osAddress.ipv4.sin_addr`. -/
def Address.sin_addr (a : Address) : List Nat := readBytes a.osAddress 4 4

/-- Read of `osAddress.ipv6.sin6_addr`. -/
def Address.sin6_addr (a : Address) : List Nat := readBytes a.osAddress 8 16

/-- The query `Address::GetPort`. -/
def Address.GetPort (a : Address) : Nat := ntohs a.sin_port

/-- The query `Address::GetFamily`: `static_cast<Family>(ntohs(sin_family))`,
the cast keeping the low 8 bits. -/
def Address.GetFamily (a : Address) : Family := ⟨ntohs a.sa_family % 256⟩

/-- The query `Address::IsValid`. -/
def Address.IsValid (a : Address) : Bool := a._validFlag != Address.invalidFlag

/-- The query `Address::IsLocal` (POSIX branch). -/
def Address.IsLocal (a : Address) : Bool := a.GetFamily == Family.Local

/-- The query `Address::IsIPv4`. -/
def Address.IsIPv4 (a : Address) : Bool := a.GetFamily == Family.IPv4

/-- The query `Address::IsIPv6`. -/
def Address.IsIPv6 (a : Address) : Bool := a.GetFamily == Family.IPv6

/-- The factory `Address::FromString`. -/
def Address.FromString (os : Os) (mem : Nat → Nat) (address_str : String) (port : Nat)
    (family : Family) : Address :=
  let result := Address.uninit mem
  let family :=
    if family == Family.None then
      (if address_str.data.contains ':' then Family.IPv6 else Family.IPv4)
    else family
  match os.inet_pton family.val address_str with
  | some bytes =>
    -- written at `&result.osAddress`, the start of the union
    let block := writeBytes result.osAddress 0 bytes
    ⟨writeU16 block 2 (htons port)⟩
  | none => ⟨writeU16 result.osAddress 0 Address.invalidFlag⟩

/-- The factory `Address::FromDomain`. The argument `port` is not used by the
body. -/
def Address.FromDomain (os : Os) (mem : Nat → Nat) (domain_str : String) (_port : Nat)
    (protocol : Protocol) (family : Family) : Address :=
  let result := Address.uninit mem
  let ai_socktype := if protocol != Protocol.None then protocol.toNat else 0
  let ai_family := if family != Family.None then family.val else 0
  match os.getaddrinfo domain_str ai_socktype ai_family with
  | (ret, addresses) =>
    if ret != 0 then result
    else
      match addresses with
      | [] => result
      | ai_addr :: _ =>
        -- `result.osAddress.any = *addresses->ai_addr` copies a `struct sockaddr`
        ⟨writeBytes result.osAddress 0 (ai_addr.take sizeofSockaddr)⟩

/-- The factory `Address::MakeBind`. -/
def Address.MakeBind (mem : Nat → Nat) (protocol : Protocol) (family : Family) (port : Nat) :
    Address :=
  let result := Address.uninit mem
  if protocol == Protocol.None || family == Family.None then result
  else
    let block := writeU16 result.osAddress 0 family.val
    if family == Family.IPv4 then
      let block := writeU32 block 4 INADDR_ANY
      ⟨writeU16 block 2 (htons port)⟩
    else if family == Family.IPv6 then
      let block := writeBytes block 8 (List.replicate 16 0)
      ⟨writeU16 block 2 (htons port)⟩
    else ⟨block⟩

/-- The text a `std::string` of `n` zero bytes holds after a C function wrote
the zero-terminated text `s` at its start. -/
def cWriteInto (n : Nat) (s : String) : String :=
  String.mk (s.data ++ List.replicate (n - s.data.length) (Char.ofNat 0))

/-- The method `Address::ConvertToString`. -/
def Address.ConvertToString (os : Os) (a : Address) : String :=
  let ret :=
    if a.sa_family == AF_INET then os.inet_ntop AF_INET a.sin_addr
    else os.inet_ntop AF_INET6 a.sin6_addr
  match ret with
  | none => ""
  | some text => cWriteInto INET6_ADDRSTRLEN text

/-! ## `Socket` -/

/-- The enumeration `Socket::State`. -/
inductive State where
  | None
  | Connected
  | Listening
deriving DecidableEq, Repr

/-- A system call issued on a socket descriptor, with its arguments. -/
inductive OsCall where
  | socket (domain type protocol : Nat)
  | close (fd : Int)
  | connect (fd : Int) (addr : List Nat) (len : Nat)
  | bind (fd : Int) (addr : List Nat) (len : Nat)
  | listen (fd : Int) (backlog : Nat)
deriving DecidableEq, Repr

/-- The class `Socket`: the descriptor and the status field. -/
structure Socket where
  osSocket : Int
  status : State
deriving DecidableEq, Repr

/-- The default constructor `Socket()`: both fields take their initialisers. -/
def Socket.ctor : Socket := ⟨INVALID_SOCKET, State.None⟩

/-- The move constructor `Socket(Socket&& other)`: the new socket and what is
left of `other`. -/
def Socket.move (other : Socket) : Socket × Socket :=
  (⟨other.osSocket, State.None⟩, ⟨INVALID_SOCKET, other.status⟩)

/-- The query `Socket::GetState`. -/
def Socket.GetState (self : Socket) : State := self.status

/-- The query `Socket::IsOpen`. -/
def Socket.IsOpen (self : Socket) : Bool := self.osSocket != INVALID_SOCKET

/-- The query `Socket::IsConnected`. -/
def Socket.IsConnected (self : Socket) : Bool := self.status == State.Connected

/-- The query `Socket::IsListening`. -/
def Socket.IsListening (self : Socket) : Bool := self.status == State.Listening

/-- The query `Socket::IsValid`. -/
def Socket.IsValid (self : Socket) : Bool := self.IsOpen

/-- Modelled from the spec: the macro `LIBPOG_ASSERT` of `utils.h`, which is
not among the sources. A violated precondition is a programming error, not a
recoverable one: the operation yields no result. -/
def LIBPOG_ASSERT {α : Type} (cond : Bool) (body : α) : Option α :=
  if cond then some body else none

/-- The method `Socket::Open` (POSIX branch). `fd` is what `socket(2)` returns.
Result: the returned flag, the socket afterwards, the system calls issued. -/
def Socket.Open (self : Socket) (protocol : Protocol) (addr_family : Family) (fd : Int) :
    Option (Bool × Socket × List OsCall) :=
  LIBPOG_ASSERT (self.IsOpen == false) <|
    let sock_type := if protocol == Protocol.None then SOCK_STREAM else protocol.toNat
    let sock_prot :=
      match protocol with
      | Protocol.TCP => IPPROTO_TCP
      | Protocol.UDP => IPPROTO_UDP
      | Protocol.None => 0
    let self : Socket := ⟨fd, self.status⟩
    let calls := [OsCall.socket addr_family.val sock_type sock_prot]
    if self.osSocket == INVALID_SOCKET then (false, self, calls) else (true, self, calls)

/-- The method `Socket::Close`. The value `close(2)` returns is only logged by
the source; `Status::None` in the source is read as `State::None`, the only
enumeration of the class. The body does not assign `osSocket`. Result: the
socket afterwards and the system calls issued. -/
def Socket.Close (self : Socket) : Socket × List OsCall :=
  if self.IsOpen == false then (self, [])
  else
    let self : Socket := ⟨self.osSocket, State.None⟩
    (self, [OsCall.close self.osSocket])

/-- The method `Socket::Connect`. `ret` is what `connect(2)` returns. -/
def Socket.Connect (self : Socket) (address : Address) (ret : Int) :
    Option (Bool × Socket × List OsCall) :=
  LIBPOG_ASSERT (self.IsOpen && self.status == State.None) <|
    let calls := [OsCall.connect self.osSocket address.osAddress sizeofOsAddress]
    if ret < 0 then (false, self, calls) else (true, self, calls)

/-- The method `Socket::Listen`. `bindRet` and `listenRet` are what `bind(2)`
and `listen(2)` return; `listen` is not called when `bind` fails. -/
def Socket.Listen (self : Socket) (address : Address) (bindRet listenRet : Int) :
    Option (Nat × Socket × List OsCall) :=
  LIBPOG_ASSERT (self.IsOpen && self.status == State.None) <|
    let bindCall := OsCall.bind self.osSocket address.osAddress sizeofSockaddr
    if bindRet == SOCKET_ERROR then (Address.invalidPort, self, [bindCall])
    else
      let calls := [bindCall, OsCall.listen self.osSocket 0]
      if listenRet < 0 then (Address.invalidPort, self, calls)
      else (address.sin_port, self, calls)

/-- The method `Socket::Disconnect`. -/
def Socket.Disconnect (self : Socket) : Option (Socket × List OsCall) :=
  LIBPOG_ASSERT self.IsConnected self.Close

/-! ## String helpers and status codes (not among the sources) -/

/-- Modelled from the spec: the `Status` enumeration of `utils.h`, which is not
among the sources; the two values the HTTP client returns, and one value for a
transport failure reported by the socket. -/
inductive Status where
  | Success
  | InvalidAddress
  | Failed
deriving DecidableEq, Repr

/-- The C predicate `isspace` in the C locale. -/
def isspace (c : Char) : Bool :=
  c.toNat == 32 || (9 ≤ c.toNat && c.toNat ≤ 13)

/-- Modelled from the spec: `StringUtils::Trim` of `stringUtils.h`, which is not
among the sources; "trim whitespace" at both ends. -/
def StringUtils.Trim (s : String) : String :=
  String.mk ((s.data.dropWhile isspace).reverse.dropWhile isspace).reverse

/-- Modelled from the spec: `StringUtils::ToUpper` of `stringUtils.h`, which is
not among the sources; "normalizes method to uppercase". -/
def StringUtils.ToUpper (s : String) : String := String.mk (s.data.map Char.toUpper)

/-- Modelled from the spec: `StringUtils::ToLower` of `stringUtils.h`, which is
not among the sources; "lowercase". -/
def StringUtils.ToLower (s : String) : String := String.mk (s.data.map Char.toLower)

/-- The text a `const char*` denotes: the characters before the first zero. -/
def cString (s : String) : String :=
  String.mk (s.data.takeWhile (fun c => c != Char.ofNat 0))

/-! ## `DataBuffer` -/

/-- The constant `DataBuffer::MAX_SIZE`. -/
def DataBuffer.MAX_SIZE : Nat := 8192

/-- The struct `DataBuffer`: `data i` is the byte `data[i]`. -/
structure DataBuffer where
  data : Nat → Char
  size : Nat

/-- The initialiser `buffer = {}`: every byte zero, `size = 0`. -/
def DataBuffer.zeroed : DataBuffer := ⟨fun _ => Char.ofNat 0, 0⟩

/-- Characters of `data` from index `i` up to the first zero, reading at most
`fuel` bytes. -/
def cStringFrom (data : Nat → Char) : Nat → Nat → List Char
  | 0, _ => []
  | fuel + 1, i =>
    if data i == Char.ofNat 0 then [] else data i :: cStringFrom data fuel (i + 1)

/-- The conversion `operator const char*` followed by the construction of a
`std::string` from that pointer: the bytes of the buffer before the first zero. -/
def DataBuffer.toCString (b : DataBuffer) : String :=
  String.mk (cStringFrom b.data DataBuffer.MAX_SIZE 0)

/-- The bytes `bytes` stored at the start of the buffer, the rest unchanged. -/
def DataBuffer.store (data : Nat → Char) (bytes : List Char) : Nat → Char :=
  fun i => bytes.getD i (data i)

/-! ## `HttpClient` -/

/-- The constant `HttpClient::HTTP_PORT`. -/
def HttpClient.HTTP_PORT : Nat := 80

/-- The constant `HttpClient::HTTPS_PORT`. -/
def HttpClient.HTTPS_PORT : Nat := 443

/-- The class `HttpClient`. -/
structure HttpClient where
  socket : Socket
  hostAddress : String
  request : String
  response : String
  buffer : DataBuffer

/-- The default constructor `HttpClient()`. -/
def HttpClient.ctor : HttpClient := ⟨Socket.ctor, "", "", "", DataBuffer.zeroed⟩

/-- The method `HttpClient::Connect`. Result: the returned status, the client
afterwards, the system calls issued on the socket. The resolved address is only
tested for validity. -/
def HttpClient.Connect (os : Os) (mem : Nat → Nat) (self : HttpClient)
    (hostAddressStr : String) : Status × HttpClient × List OsCall :=
  let self : HttpClient :=
    ⟨self.socket, StringUtils.ToLower (StringUtils.Trim hostAddressStr), self.request,
      self.response, self.buffer⟩
  let hostIpAddress :=
    Address.FromDomain os mem (cString self.hostAddress) HttpClient.HTTP_PORT Protocol.None
      Family.None
  if hostIpAddress.IsValid == false then (Status.InvalidAddress, self, [])
  else (Status.Success, self, [])

/-- The method `HttpClient::Disconnect`. -/
def HttpClient.Disconnect (self : HttpClient) : HttpClient × List OsCall :=
  let r := self.socket.Close
  (⟨r.1, self.hostAddress, self.request, self.response, self.buffer⟩, r.2)

/-- The method `HttpClient::GetState`. -/
def HttpClient.GetState (self : HttpClient) : State := self.socket.GetState

/-- The method `HttpClient::CreateRequest`: the returned text and the client
afterwards (the text is also stored in `request`). -/
def HttpClient.CreateRequest (self : HttpClient) (method uri version : String) :
    String × HttpClient :=
  let method := StringUtils.ToUpper (StringUtils.Trim method)
  let text :=
    if method == "GET" then
      method ++ " " ++ StringUtils.Trim uri ++ "/ HTTP/" ++ StringUtils.Trim version ++ "\r\n" ++
        "Host:" ++ self.hostAddress ++ "\r\n" ++ "Connection: close\r\n\r\n"
    else
      method ++ " " ++ StringUtils.Trim uri ++ "/ HTTP/" ++ StringUtils.Trim version ++ "\r\n" ++
        "Host:" ++ self.hostAddress ++ "\r\nConnection: close\r\n" ++
        "Content-Type: text/html\r\n\r\n"
  (text, ⟨self.socket, self.hostAddress, text, self.response, self.buffer⟩)

/-- Modelled from the spec: what one call `socket.Receive(buffer, MAX_SIZE - 1)`
followed by `socket.GetStatus()` yields; the bodies of `Socket::Receive` and
`GetStatus` are not among the sources. `bytes` are the bytes placed in the
buffer (their number is the return value), `status` is the status reported. -/
structure Received where
  bytes : List Char
  status : Status

/-- The `do ... while (buffer.size > 0)` loop of `HttpClient::SendHttpRequest`,
one iteration per element of `script`. Once the script is used up the peer has
closed the stream: the receive call yields zero bytes and reports no failure. -/
def HttpClient.receiveLoop : List Received → HttpClient → HttpClient
  | [], self =>
    let buffer : DataBuffer := ⟨self.buffer.data, 0⟩
    ⟨self.socket, self.hostAddress, self.request, buffer.toCString, buffer⟩
  | r :: script, self =>
    let bytes := r.bytes.take (DataBuffer.MAX_SIZE - 1)
    let buffer : DataBuffer := ⟨DataBuffer.store self.buffer.data bytes, bytes.length⟩
    if r.status != Status.Success then
      ⟨self.socket, self.hostAddress, self.request, self.response, buffer⟩
    else
      let self : HttpClient :=
        ⟨self.socket, self.hostAddress, self.request, buffer.toCString, buffer⟩
      if buffer.size > 0 then HttpClient.receiveLoop script self else self

/-- The method `HttpClient::SendHttpRequest`: the returned text and the client
afterwards. `script` is what the successive receive calls deliver. The three
arguments reach `CreateRequest` through `data()`, as C strings. -/
def HttpClient.SendHttpRequest (self : HttpClient) (script : List Received)
    (method uri version : String) : String × HttpClient :=
  let self : HttpClient := ⟨self.socket, self.hostAddress, "", "", self.buffer⟩
  let self := (self.CreateRequest (cString method) (cString uri) (cString version)).2
  -- `socket.Send(request)`: the answers of the peer are `script`
  let self := HttpClient.receiveLoop script self
  (self.response, self)

/-! ## A concrete C library, for evaluating examples -/

/-- Split a text at every occurrence of `sep`. -/
def splitOnChar (sep : Char) : List Char → List (List Char)
  | [] => [[]]
  | c :: cs =>
    if c == sep then [] :: splitOnChar sep cs
    else
      match splitOnChar sep cs with
      | [] => [[c]]
      | p :: ps => (c :: p) :: ps

/-- Value of a decimal digit. -/
def decDigit (c : Char) : Option Nat :=
  if 48 ≤ c.toNat && c.toNat ≤ 57 then some (c.toNat - 48) else none

/-- Value of a hexadecimal digit, either case. -/
def hexDigit (c : Char) : Option Nat :=
  if 48 ≤ c.toNat && c.toNat ≤ 57 then some (c.toNat - 48)
  else if 97 ≤ c.toNat && c.toNat ≤ 102 then some (c.toNat - 87)
  else if 65 ≤ c.toNat && c.toNat ≤ 70 then some (c.toNat - 55)
  else none

/-- One dotted-decimal field as `inet_pton` reads it: decimal digits, at least
one, no leading zero before another digit, value at most 255. -/
def octetLoop : List Char → Option Nat → Option Nat
  | [], acc => acc
  | c :: cs, acc =>
    match decDigit c with
    | none => none
    | some d =>
      match acc with
      | none => octetLoop cs (some d)
      | some v => if v == 0 || v * 10 + d > 255 then none else octetLoop cs (some (v * 10 + d))

/-- The call `inet_pton(AF_INET, text, dst)`: exactly four fields. -/
def inet_pton4 (text : List Char) : Option (List Nat) :=
  match (splitOnChar '.' text).map (fun f => octetLoop f none) with
  | [some a, some b, some c, some d] => some [a, b, c, d]
  | _ => none

/-- The call `inet_ntop(AF_INET, src, ...)` on four bytes. -/
def inet_ntop4 (src : List Nat) : List Char :=
  (Nat.toDigits 10 (src.getD 0 0)) ++ '.' :: (Nat.toDigits 10 (src.getD 1 0)) ++
    '.' :: (Nat.toDigits 10 (src.getD 2 0)) ++ '.' :: (Nat.toDigits 10 (src.getD 3 0))

/-- The scanning loop of `inet_pton(AF_INET6, ...)`: `tp` are the bytes stored
so far, `colonp` the position of `::` among them, `saw` the number of
hexadecimal digits of the current group, `val` its value, `curtok` the text
from the start of the current group. -/
def pton6Loop : List Char → List Nat → Option Nat → Nat → Nat → List Char →
    Option (List Nat × Option Nat)
  | [], tp, colonp, saw, val, _ =>
    if saw > 0 then
      (if tp.length + 2 > 16 then none else some (tp ++ [val / 256, val % 256], colonp))
    else some (tp, colonp)
  | ch :: src, tp, colonp, saw, val, curtok =>
    match hexDigit ch with
    | some d =>
      if saw + 1 > 4 then none else pton6Loop src tp colonp (saw + 1) (val * 16 + d) curtok
    | none =>
      if ch == ':' then
        if saw == 0 then
          (if colonp.isSome then none else pton6Loop src tp (some tp.length) 0 val src)
        else if src.isEmpty then none
        else if tp.length + 2 > 16 then none
        else pton6Loop src (tp ++ [val / 256, val % 256]) colonp 0 0 src
      else if ch == '.' && tp.length + 4 ≤ 16 then
        match inet_pton4 curtok with
        | some quad => some (tp ++ quad, colonp)
        | none => none
      else none

/-- The call `inet_pton(AF_INET6, text, dst)`. -/
def inet_pton6 (text : List Char) : Option (List Nat) :=
  let start : Option (List Char) :=
    match text with
    | ':' :: rest => (match rest with | ':' :: _ => some rest | _ => none)
    | _ => some text
  match start with
  | none => none
  | some src =>
    match pton6Loop src [] none 0 0 src with
    | none => none
    | some (tp, some k) =>
      if tp.length == 16 then none
      else some (tp.take k ++ List.replicate (16 - tp.length) 0 ++ tp.drop k)
    | some (tp, none) => if tp.length == 16 then some tp else none

/-- The eight 16-bit groups of sixteen bytes, most significant byte first. -/
def words6 (src : List Nat) : List Nat :=
  (List.range 8).map (fun i => src.getD (2 * i) 0 * 256 + src.getD (2 * i + 1) 0)

/-- The first longest run of zero groups, as (start, length): `best` is the
longest run closed so far, `cur` the run the scan is in. -/
def zeroRun : List Nat → Nat → Option (Nat × Nat) → Option (Nat × Nat) → Option (Nat × Nat)
  | [], _, best, cur =>
    match cur, best with
    | some c, some b => if c.2 > b.2 then some c else some b
    | some c, none => some c
    | none, b => b
  | w :: ws, i, best, cur =>
    if w == 0 then
      match cur with
      | none => zeroRun ws (i + 1) best (some (i, 1))
      | some c => zeroRun ws (i + 1) best (some (c.1, c.2 + 1))
    else
      match cur, best with
      | some c, some b => zeroRun ws (i + 1) (if c.2 > b.2 then some c else some b) none
      | some c, none => zeroRun ws (i + 1) (some c) none
      | none, b => zeroRun ws (i + 1) b none

/-- The printing loop of `inet_ntop(AF_INET6, ...)` from group `i` on; `best`
is the run of zero groups written as `::`. -/
def ntop6Loop (src : List Nat) (best : Option (Nat × Nat)) : List Nat → Nat → List Char
  | [], _ => []
  | w :: ws, i =>
    let inBest := match best with
      | some b => b.1 ≤ i && i < b.1 + b.2
      | none => false
    if inBest then
      (if (best.map Prod.fst) == some i then ':' :: ntop6Loop src best ws (i + 1)
       else ntop6Loop src best ws (i + 1))
    else
      let sep := if i != 0 then [':'] else []
      let mapped := match best with
        | some b => i == 6 && b.1 == 0 && (b.2 == 6 || (b.2 == 5 && (words6 src).getD 5 0 == 0xffff))
        | none => false
      if mapped then sep ++ inet_ntop4 (src.drop 12)
      else sep ++ Nat.toDigits 16 w ++ ntop6Loop src best ws (i + 1)

/-- The call `inet_ntop(AF_INET6, src, ...)` on sixteen bytes. -/
def inet_ntop6 (src : List Nat) : List Char :=
  let words := words6 src
  let best := match zeroRun words 0 none none with
    | some b => if b.2 < 2 then none else some b
    | none => none
  let tail := match best with
    | some b => if b.1 + b.2 == 8 then [':'] else []
    | none => []
  ntop6Loop src best words 0 ++ tail

/-- The `ai_addr` block of an IPv4 candidate: a `sockaddr_in` with
`sin_family = AF_INET`, port 0 (no service was asked for) and the address. -/
def sockaddrIn (addr : List Nat) : List Nat :=
  [AF_INET, 0, 0, 0] ++ addr ++ List.replicate 8 0

/-- A resolver that knows two names and every numeric IPv4 text; any other
name fails with `EAI_NONAME` (-2). -/
def exampleResolve (node : String) (_socktype _family : Nat) : Int × List (List Nat) :=
  if node == "example.com" then (0, [sockaddrIn [93, 184, 216, 34]])
  else if node == "localhost" then (0, [sockaddrIn [127, 0, 0, 1]])
  else
    match inet_pton4 node.data with
    | some addr => (0, [sockaddrIn addr])
    | none => (-2, [])

/-- A concrete C library: the text conversions of glibc and the resolver
above. An unsupported family makes both conversions fail. -/
def glibc : Os where
  inet_pton af text :=
    if af == AF_INET then inet_pton4 text.data
    else if af == AF_INET6 then inet_pton6 text.data
    else none
  inet_ntop af src :=
    if af == AF_INET then some (String.mk (inet_ntop4 src))
    else if af == AF_INET6 then some (String.mk (inet_ntop6 src))
    else none
  getaddrinfo := exampleResolve


/-! ## Inputs of the worked examples -/

/-- Memory holding zero at every offset. -/
def zeroMem : Nat → Nat := fun _ => 0

/-- A receive script: the two chunks "abc" and "de", then a zero-byte receive,
no transport failure. -/
def twoChunks : List Received :=
  [⟨"abc".data, Status.Success⟩, ⟨"de".data, Status.Success⟩, ⟨[], Status.Success⟩]

/-- A receive script: the single chunk of the loopback test, then a zero-byte
receive, no transport failure. -/
def oneChunk : List Received :=
  [⟨"HTTP/1.1 200 OK\r\n\r\nhi".data, Status.Success⟩, ⟨[], Status.Success⟩]

/-- A client whose stored host is `host`, everything else as constructed. -/
def HttpClient.withHost (host : String) : HttpClient :=
  ⟨Socket.ctor, host, "", "", DataBuffer.zeroed⟩

/-! ## Sequences of `Socket` operations -/

/-- One operation on a socket object, with what the system calls return.
`moveInto` follows the socket constructed by `Socket(Socket&&)` from the
current one, `movedFrom` follows the current one after it was moved from. The
constructor `Socket(protocol, family)` is `Socket()` followed by `Open`. -/
inductive SocketOp where
  | Open (protocol : Protocol) (addrFamily : Family) (fd : Int)
  | Close
  | Connect (address : Address) (ret : Int)
  | Listen (address : Address) (bindRet listenRet : Int)
  | moveInto
  | movedFrom

/-- The socket after one operation; `none` when an assertion of the operation
is violated. -/
def Socket.apply : SocketOp → Socket → Option Socket
  | SocketOp.Open protocol addrFamily fd, s => (s.Open protocol addrFamily fd).map (fun r => r.2.1)
  | SocketOp.Close, s => some s.Close.1
  | SocketOp.Connect address ret, s => (s.Connect address ret).map (fun r => r.2.1)
  | SocketOp.Listen address bindRet listenRet, s =>
    (s.Listen address bindRet listenRet).map (fun r => r.2.1)
  | SocketOp.moveInto, s => some s.move.1
  | SocketOp.movedFrom, s => some s.move.2

/-- The socket after a sequence of operations, first operation first. -/
def Socket.run : List SocketOp → Socket → Option Socket
  | [], s => some s
  | op :: ops, s =>
    match Socket.apply op s with
    | none => none
    | some s1 => Socket.run ops s1

/-! ## `HttpsClient` -/

/-- Modelled from the spec: the enumeration `ClientStatus` of `clientStatus.h`,
which is not among the sources; the three values `httpsClient.cpp` uses. -/
inductive ClientStatus where
  | kClientDisconnected
  | kCLientInited
  | kClientConnected
deriving DecidableEq, Repr

/-- A call into the TLS library, the resolver or the kernel made by
`HttpsClient`, with the pointer or descriptor it is given; `os` wraps a system
call on a socket descriptor. -/
inductive TlsCall where
  | SSL_CTX_new
  | SSL_new (ctx : Option Nat)
  | tcpConnect
  | SSL_set_fd (ssl : Option Nat) (fd : Int)
  | SSL_connect (ssl : Option Nat)
  | SSL_write (ssl : Option Nat)
  | SSL_read (ssl : Option Nat)
  | SSL_shutdown (ssl : Option Nat)
  | SSL_free (ssl : Option Nat)
  | SSL_CTX_free (ctx : Option Nat)
  | os (call : OsCall)
  | freeaddrinfo
  | exit (code : Int)
deriving DecidableEq, Repr

/-- The class `HttpsClient`: the base `HttpClient`, its own members, and the
descriptor `clientSocket` its teardown paths close (a member of the legacy
`Client` of `client.h`). A pointer is `none` when null. -/
structure HttpsClient where
  base : HttpClient
  sslContext : Option Nat
  sslSocket : Option Nat
  clientStatus : ClientStatus
  request : String
  response : String
  buffer : DataBuffer
  clientSocket : Int

/-- The constructor `HttpsClient()`. The member `buffer` has no initialiser for
its bytes and `clientSocket` has none either: `data` and `clientSocket` are what
memory holds. -/
def HttpsClient.ctor (data : Nat → Char) (clientSocket : Int) : HttpsClient :=
  ⟨HttpClient.ctor, none, none, ClientStatus.kClientDisconnected, "", "", ⟨data, 0⟩,
    clientSocket⟩

/-- The method `HttpsClient::Init` (POSIX branch). `ctx` and `ssl` are what
`SSL_CTX_new` and `SSL_new` return, `connected` what the TCP-level
`Connect(port, hostAddress)` returns (its body is not among the sources).
Result: the calls made, and the client afterwards, `none` when the process
exits. -/
def HttpsClient.Init (self : HttpsClient) (ctx ssl : Option Nat) (connected : Bool) :
    List TlsCall × Option HttpsClient :=
  let self : HttpsClient := { self with sslContext := ctx }
  if self.sslContext == none then
    ([TlsCall.SSL_CTX_new, TlsCall.exit SOCKET_ERROR], none)
  else
    let self : HttpsClient := { self with sslSocket := ssl }
    if self.sslSocket == none then
      ([TlsCall.SSL_CTX_new, TlsCall.SSL_new self.sslContext,
        TlsCall.SSL_CTX_free self.sslContext, TlsCall.exit SOCKET_ERROR], none)
    else if !connected then
      ([TlsCall.SSL_CTX_new, TlsCall.SSL_new self.sslContext, TlsCall.tcpConnect,
        TlsCall.SSL_shutdown self.sslSocket, TlsCall.SSL_free self.sslSocket,
        TlsCall.SSL_CTX_free self.sslContext, TlsCall.os (OsCall.close self.clientSocket),
        TlsCall.freeaddrinfo, TlsCall.exit SOCKET_ERROR], none)
    else
      ([TlsCall.SSL_CTX_new, TlsCall.SSL_new self.sslContext, TlsCall.tcpConnect,
        TlsCall.SSL_set_fd self.sslSocket self.clientSocket],
        some { self with clientStatus := ClientStatus.kCLientInited })

/-- The method `HttpsClient::HTTPSConnect`. `handshake` is what `SSL_connect`
returns. Result: the calls made, and the returned flag with the client
afterwards, `none` when the process exits. -/
def HttpsClient.HTTPSConnect (self : HttpsClient) (ctx ssl : Option Nat) (connected : Bool)
    (handshake : Int) : List TlsCall × Option (Bool × HttpsClient) :=
  if self.clientStatus != ClientStatus.kClientDisconnected then ([], some (false, self))
  else
    match self.Init ctx ssl connected with
    | (calls, none) => (calls, none)
    | (calls, some self) =>
      if handshake != 1 then (calls ++ [TlsCall.SSL_connect self.sslSocket], some (false, self))
      else
        (calls ++ [TlsCall.SSL_connect self.sslSocket],
          some (true, { self with clientStatus := ClientStatus.kClientConnected }))

/-- The method `HttpsClient::Send` (POSIX branch). `written` is what `SSL_write`
returns. Result: the calls made, and the client afterwards, `none` when the
process exits. -/
def HttpsClient.Send (self : HttpsClient) (written : Int) : List TlsCall × Option HttpsClient :=
  if written > 0 then ([TlsCall.SSL_write self.sslSocket], some self)
  else
    ([TlsCall.SSL_write self.sslSocket, TlsCall.SSL_shutdown self.sslSocket,
      TlsCall.os (OsCall.close self.clientSocket), TlsCall.freeaddrinfo,
      TlsCall.SSL_free self.sslSocket, TlsCall.SSL_CTX_free self.sslContext,
      TlsCall.exit SOCKET_ERROR], none)

/-- What one call of `SSL_read` yields: the `int` it returns and, when that is
positive, the bytes it placed at the start of the buffer. -/
structure TlsRead where
  ret : Int
  bytes : List Char

/-- The conversion of an `int` to `size_t` (64 bits). -/
def toSizeT (r : Int) : Nat := (r % 18446744073709551616).toNat

/-- The method `HttpsClient::Receive` (POSIX branch). The result of `SSL_read`
is stored in `buffer.size`, of type `size_t`, and the value compared with 0 is
that of the assignment, the unsigned `buffer.size`. Result: the calls made and
the client afterwards; no branch exits. -/
def HttpsClient.Receive (self : HttpsClient) (r : TlsRead) : List TlsCall × HttpsClient :=
  let buffer : DataBuffer :=
    ⟨DataBuffer.store self.buffer.data (r.bytes.take r.ret.toNat), toSizeT r.ret⟩
  let self : HttpsClient := { self with buffer := buffer }
  if self.buffer.size ≥ 0 then ([TlsCall.SSL_read self.sslSocket], self)
  else
    ([TlsCall.SSL_read self.sslSocket, TlsCall.SSL_shutdown self.sslSocket,
      TlsCall.os (OsCall.close self.clientSocket), TlsCall.freeaddrinfo,
      TlsCall.SSL_free self.sslSocket, TlsCall.SSL_CTX_free self.sslContext], self)

/-- The method `HttpsClient::Proccess`: `response.assign(buffer.data)`. -/
def HttpsClient.Proccess (self : HttpsClient) : HttpsClient :=
  { self with response := self.buffer.toCString }

/-- The `do ... while (buffer.size > 0)` loop of `HttpsClient::SendHttpsRequest`,
one iteration per element of `script`. Once the script is used up the peer has
closed the stream: `SSL_read` returns 0. -/
def HttpsClient.receiveLoop : List TlsRead → HttpsClient → List TlsCall × HttpsClient
  | [], self =>
    let r := self.Receive ⟨0, []⟩
    (r.1, r.2.Proccess)
  | r :: script, self =>
    let received := self.Receive r
    let self := received.2.Proccess
    if self.buffer.size > 0 then
      let rest := HttpsClient.receiveLoop script self
      (received.1 ++ rest.1, rest.2)
    else (received.1, self)

/-- The method `HttpsClient::SendHttpsRequest`. `written` is what `SSL_write`
returns, `script` what the successive calls of `SSL_read` yield. Result: the
calls made, and the returned text with the client afterwards, `none` when the
process exits. -/
def HttpsClient.SendHttpsRequest (self : HttpsClient) (written : Int) (script : List TlsRead)
    (method uri version : String) : List TlsCall × Option (String × HttpsClient) :=
  let self : HttpsClient := { self with request := "", response := "" }
  let created := self.base.CreateRequest method uri version
  let self : HttpsClient := { self with base := created.2, request := created.1 }
  match self.Send written with
  | (calls, none) => (calls, none)
  | (calls, some self) =>
    let looped := HttpsClient.receiveLoop script self
    (calls ++ looped.1, some (looped.2.response, looped.2))

/-- The method `HttpsClient::HTTPSDisconnect`: the calls made and the client
afterwards. -/
def HttpsClient.HTTPSDisconnect (self : HttpsClient) : List TlsCall × HttpsClient :=
  let first : List TlsCall × HttpsClient :=
    if self.clientStatus != ClientStatus.kClientDisconnected then
      ([TlsCall.SSL_shutdown self.sslSocket, TlsCall.SSL_free self.sslSocket,
        TlsCall.SSL_CTX_free self.sslContext],
        { self with clientStatus := ClientStatus.kClientDisconnected })
    else ([], self)
  let closed := first.2.base.Disconnect
  (first.1 ++ closed.2.map TlsCall.os, { first.2 with base := closed.1 })

/-! ## Order of release -/

/-- The call frees the TLS session. -/
def TlsCall.freesSession : TlsCall → Bool
  | TlsCall.SSL_free _ => true
  | _ => false

/-- The call frees the TLS context. -/
def TlsCall.freesContext : TlsCall → Bool
  | TlsCall.SSL_CTX_free _ => true
  | _ => false

/-- The call closes a raw socket handle. -/
def TlsCall.closesHandle : TlsCall → Bool
  | TlsCall.os (OsCall.close _) => true
  | _ => false

/-- The order "session, then context, then raw handle" on a sequence of calls,
in the words of the specification: no free of the session or of the context
follows a close of the raw handle, and no free of the session follows a free
of the context. -/
def releasedInOrder : List TlsCall → Bool
  | [] => true
  | c :: rest =>
    (!c.closesHandle || !rest.any (fun d => d.freesSession || d.freesContext)) &&
      (!c.freesContext || !rest.any TlsCall.freesSession) && releasedInOrder rest

/-- A client with a TLS session and context allocated and connected:
`sslContext = 1`, `sslSocket = 2`, `clientSocket = 3`. -/
def HttpsClient.connected : HttpsClient :=
  ⟨HttpClient.withHost "example.com", some 1, some 2, ClientStatus.kClientConnected, "", "",
    DataBuffer.zeroed, 3⟩

/-! ## Byte-level lemmas -/

theorem Address.uninit_osAddress (mem : Nat → Nat) :
    (Address.uninit mem).osAddress =
      255 :: 255 :: mem 2 % 256 :: mem 3 % 256 ::
        (List.range 24).map (fun i => mem (i + 4) % 256) := rfl

theorem readU16_zero (a b : Nat) (l : List Nat) : readU16 (a :: b :: l) 0 = a + 256 * b := rfl

theorem readU16_two (a b c d : Nat) (l : List Nat) :
    readU16 (a :: b :: c :: d :: l) 2 = c + 256 * d := rfl

theorem writeU16_zero (a b v : Nat) (l : List Nat) :
    writeU16 (a :: b :: l) 0 v = v % 256 :: v / 256 % 256 :: l := rfl

theorem writeU16_two (a b v : Nat) (l : List Nat) :
    writeU16 (a :: b :: l) 2 v = a :: b :: v % 256 :: v / 256 % 256 :: l.drop 2 := rfl

theorem writeBytes_zero_cons2 (x y : Nat) (bs block : List Nat) :
    writeBytes block 0 (x :: y :: bs) = x :: y :: (bs ++ block.drop (bs.length + 2)) := by
  simp [writeBytes]

theorem ntohs_htons (p : Nat) (hp : p < 65536) : ntohs (htons p) = p := by
  unfold ntohs htons
  have ha : p % 256 < 256 := Nat.mod_lt _ (by norm_num)
  have hb : p / 256 < 256 := by omega
  have hp2 : p = 256 * (p / 256) + p % 256 := (Nat.div_add_mod p 256).symm
  generalize p % 256 = a at *
  generalize p / 256 = b at *
  have h1 : b % 256 = b := Nat.mod_eq_of_lt hb
  have h2 : (a * 256 + b) % 256 = b := by omega
  have h3 : (a * 256 + b) / 256 = a := by omega
  have h4 : a % 256 = a := Nat.mod_eq_of_lt ha
  rw [h1, h2, h3, h4]
  omega

theorem word_of_bytes (v : Nat) (hv : v < 65536) : v % 256 + 256 * (v / 256 % 256) = v := by
  omega

theorem htons_lt (p : Nat) : htons p < 65536 := by
  unfold htons
  omega

/-! ## `Address` -/

theorem Address.uninit_IsValid (mem : Nat → Nat) : (Address.uninit mem).IsValid = false := by
  unfold Address.IsValid Address._validFlag
  rw [Address.uninit_osAddress, readU16_zero]
  decide

/-- An unparsable text gives an invalid `Address`, whatever the library. -/
theorem Address.FromString_unparsed (os : Os) (mem : Nat → Nat) (text : String) (port : Nat)
    (family : Family)
    (h : os.inet_pton
      (if family == Family.None then
        (if text.data.contains ':' then Family.IPv6 else Family.IPv4) else family).val text = none) :
    (Address.FromString os mem text port family).IsValid = false := by
  unfold Address.FromString
  simp only [h]
  unfold Address.IsValid Address._validFlag
  rw [Address.uninit_osAddress, writeU16_zero, readU16_zero]
  decide

/-- A text whose address starts with the bytes 255, 255 gives an invalid
`Address` although it was parsed. -/
theorem Address.FromString_parsed_ffff (os : Os) (mem : Nat → Nat) (text : String) (port : Nat)
    (family : Family) (rest : List Nat)
    (h : os.inet_pton
      (if family == Family.None then
        (if text.data.contains ':' then Family.IPv6 else Family.IPv4) else family).val text =
        some (255 :: 255 :: rest)) :
    (Address.FromString os mem text port family).IsValid = false := by
  unfold Address.FromString
  simp only [h]
  unfold Address.IsValid Address._validFlag
  rw [writeBytes_zero_cons2, writeU16_two, readU16_zero]
  decide


theorem Address.MakeBind_IPv4_osAddress (mem : Nat → Nat) (protocol : Protocol) (port : Nat)
    (hp : protocol ≠ Protocol.None) :
    (Address.MakeBind mem protocol Family.IPv4 port).osAddress =
      2 :: 0 :: htons port % 256 :: htons port / 256 % 256 :: 0 :: 0 :: 0 :: 0 ::
        (List.range 20).map (fun i => mem (i + 8) % 256) := by
  cases protocol with
  | None => exact absurd rfl hp
  | TCP => rfl
  | UDP => rfl

theorem Address.MakeBind_IPv6_osAddress (mem : Nat → Nat) (protocol : Protocol) (port : Nat)
    (hp : protocol ≠ Protocol.None) :
    (Address.MakeBind mem protocol Family.IPv6 port).osAddress =
      10 :: 0 :: htons port % 256 :: htons port / 256 % 256 ::
        mem 4 % 256 :: mem 5 % 256 :: mem 6 % 256 :: mem 7 % 256 ::
        (List.replicate 16 0 ++ (List.range 4).map (fun i => mem (i + 24) % 256)) := by
  cases protocol with
  | None => exact absurd rfl hp
  | TCP => rfl
  | UDP => rfl

/-- What the queries report on any block that starts with a family word `fam`
(below 256) and the port `p` in network byte order. -/
theorem Address.queries_of_prefix (fam p : Nat) (l : List Nat) (hp : p < 65536) :
    (Address.mk (fam :: 0 :: htons p % 256 :: htons p / 256 % 256 :: l)).GetPort = p ∧
    (Address.mk (fam :: 0 :: htons p % 256 :: htons p / 256 % 256 :: l)).sin_port = htons p ∧
    (Address.mk (fam :: 0 :: htons p % 256 :: htons p / 256 % 256 :: l)).sa_family = fam := by
  unfold Address.GetPort Address.sin_port Address.sa_family
  rw [readU16_two, readU16_zero, word_of_bytes _ (htons_lt p), ntohs_htons p hp]
  simp

/-- The wildcard address of `MakeBind`: valid, the port is reported as asked,
the family is reported as `None` (the byte swap of `GetFamily` moves the family
out of the low byte). -/
theorem Address.MakeBind_queries (mem : Nat → Nat) (protocol : Protocol) (family : Family)
    (port : Nat) (hprot : protocol ≠ Protocol.None)
    (hfam : family = Family.IPv4 ∨ family = Family.IPv6) (hport : port < 65536) :
    (Address.MakeBind mem protocol family port).IsValid = true ∧
    (Address.MakeBind mem protocol family port).GetPort = port ∧
    (Address.MakeBind mem protocol family port).sin_port = htons port ∧
    (Address.MakeBind mem protocol family port).GetFamily = Family.None ∧
    (Address.MakeBind mem protocol family port).IsIPv4 = false ∧
    (Address.MakeBind mem protocol family port).IsIPv6 = false := by
  rcases hfam with h | h
  · subst h
    have hb := Address.MakeBind_IPv4_osAddress mem protocol port hprot
    obtain ⟨h1, h2, h3⟩ := Address.queries_of_prefix 2 port
      (0 :: 0 :: 0 :: 0 :: (List.range 20).map (fun i => mem (i + 8) % 256)) hport
    have he : Address.MakeBind mem protocol Family.IPv4 port = Address.mk _ :=
      congrArg Address.mk hb
    rw [he]
    have hf : (Address.mk (2 :: 0 :: htons port % 256 :: htons port / 256 % 256 :: 0 :: 0 :: 0
        :: 0 :: (List.range 20).map (fun i => mem (i + 8) % 256))).GetFamily = Family.None := by
      unfold Address.GetFamily
      rw [h3]
      decide
    refine ⟨?_, h1, h2, hf, ?_, ?_⟩
    · unfold Address.IsValid Address._validFlag
      rw [readU16_zero]
      decide
    · unfold Address.IsIPv4
      rw [hf]
      decide
    · unfold Address.IsIPv6
      rw [hf]
      decide
  · subst h
    have hb := Address.MakeBind_IPv6_osAddress mem protocol port hprot
    obtain ⟨h1, h2, h3⟩ := Address.queries_of_prefix 10 port
      (mem 4 % 256 :: mem 5 % 256 :: mem 6 % 256 :: mem 7 % 256 ::
        (List.replicate 16 0 ++ (List.range 4).map (fun i => mem (i + 24) % 256))) hport
    have he : Address.MakeBind mem protocol Family.IPv6 port = Address.mk _ :=
      congrArg Address.mk hb
    rw [he]
    have hf : (Address.mk (10 :: 0 :: htons port % 256 :: htons port / 256 % 256 ::
        mem 4 % 256 :: mem 5 % 256 :: mem 6 % 256 :: mem 7 % 256 ::
        (List.replicate 16 0 ++ (List.range 4).map (fun i => mem (i + 24) % 256)))).GetFamily =
        Family.None := by
      unfold Address.GetFamily
      rw [h3]
      decide
    refine ⟨?_, h1, h2, hf, ?_, ?_⟩
    · unfold Address.IsValid Address._validFlag
      rw [readU16_zero]
      decide
    · unfold Address.IsIPv4
      rw [hf]
      decide
    · unfold Address.IsIPv6
      rw [hf]
      decide

theorem Address.FromDomain_port_unused (os : Os) (mem : Nat → Nat) (domain : String)
    (p q : Nat) (protocol : Protocol) (family : Family) :
    Address.FromDomain os mem domain p protocol family =
      Address.FromDomain os mem domain q protocol family := rfl

/-- A failed or empty resolution gives an invalid `Address`. -/
theorem Address.FromDomain_unresolved (os : Os) (mem : Nat → Nat) (domain : String) (port : Nat)
    (h : (os.getaddrinfo domain 0 0).1 ≠ 0 ∨ (os.getaddrinfo domain 0 0).2 = []) :
    (Address.FromDomain os mem domain port Protocol.None Family.None).IsValid = false := by
  have hu := Address.uninit_IsValid mem
  unfold Address.FromDomain
  rcases hg : os.getaddrinfo domain 0 0 with ⟨ret, addresses⟩
  rw [hg] at h
  have hs : (if (Protocol.None != Protocol.None) = true then Protocol.None.toNat else 0) = 0 := by
    decide
  have hf : (if (Family.None != Family.None) = true then Family.None.val else 0) = 0 := by
    decide
  simp only [hs, hf, hg]
  rcases h with h | h
  · have hr : (ret != 0) = true := by simpa using h
    simp only [hr, if_true]
    exact hu
  · simp only at h
    subst h
    by_cases hr : (ret != 0) = true
    · simp only [hr, if_true]
      exact hu
    · simp only [hr]
      exact hu

theorem Socket.Listen_success (s : Socket) (address : Address) (bindRet listenRet : Int)
    (hopen : s.IsOpen = true) (hidle : s.status = State.None)
    (hb : bindRet ≠ SOCKET_ERROR) (hl : 0 ≤ listenRet) :
    (s.Listen address bindRet listenRet).map (fun r => r.1) = some address.sin_port := by
  have hb2 : (bindRet == SOCKET_ERROR) = false := by simpa using hb
  have hl2 : ¬ listenRet < 0 := by omega
  simp [Socket.Listen, LIBPOG_ASSERT, hopen, hidle, hb2, hl2]

theorem Socket.Listen_failure (s : Socket) (address : Address) (bindRet listenRet : Int)
    (hopen : s.IsOpen = true) (hidle : s.status = State.None)
    (h : bindRet = SOCKET_ERROR ∨ listenRet < 0) :
    (s.Listen address bindRet listenRet).map (fun r => r.1) = some Address.invalidPort := by
  rcases h with h | h
  · simp [Socket.Listen, LIBPOG_ASSERT, hopen, hidle, h]
  · by_cases hb : bindRet = SOCKET_ERROR
    · simp [Socket.Listen, LIBPOG_ASSERT, hopen, hidle, hb]
    · have hb2 : (bindRet == SOCKET_ERROR) = false := by simpa using hb
      simp [Socket.Listen, LIBPOG_ASSERT, hopen, hidle, h, hb2]

/-! ## `Socket` -/

/-- On an open socket `Close` issues one `close` on the descriptor, resets the
status and keeps the descriptor. -/
theorem Socket.Close_of_open (s : Socket) (h : s.IsOpen = true) :
    s.Close.1 = ⟨s.osSocket, State.None⟩ ∧ s.Close.1.IsOpen = true ∧
      s.Close.2 = [OsCall.close s.osSocket] := by
  have h2 : s.osSocket ≠ INVALID_SOCKET := by simpa [Socket.IsOpen] using h
  simp [Socket.Close, Socket.IsOpen, h2]

/-- On an unopened socket `Close` does nothing. -/
theorem Socket.Close_of_unopened (s : Socket) (h : s.IsOpen = false) :
    s.Close = (s, []) := by
  simp [Socket.Close, h]

/-! ## The claims -/

/-- C1: `HttpClient::CreateRequest` returns the upper-cased trimmed method, a
blank, the trimmed uri, "/ HTTP/", the trimmed version, then the `Host:` line
with the stored host, the `Connection: close` line, for a method other than
GET the `Content-Type: text/html` line, and the empty line; with the two
worked examples of the specification. -/
theorem HttpClient.CreateRequest_wire_format :
    (∀ (self : HttpClient) (method uri version : String),
      (self.CreateRequest method uri version).1 =
        StringUtils.ToUpper (StringUtils.Trim method) ++ " " ++ StringUtils.Trim uri ++
          "/ HTTP/" ++ StringUtils.Trim version ++ "\r\nHost:" ++ self.hostAddress ++
          "\r\nConnection: close\r\n" ++
          (if StringUtils.ToUpper (StringUtils.Trim method) = "GET" then ""
            else "Content-Type: text/html\r\n") ++ "\r\n") ∧
    ((HttpClient.withHost "example.com").CreateRequest "get" "/path" "1.1").1 =
      "GET /path/ HTTP/1.1\r\nHost:example.com\r\nConnection: close\r\n\r\n" ∧
    (∀ self : HttpClient, ∃ head : String,
      (self.CreateRequest "POST" "/p" "1.0").1 =
        head ++ "Connection: close\r\nContent-Type: text/html\r\n\r\n") := by
  refine ⟨?_, by decide, ?_⟩
  · intro self method uri version
    unfold HttpClient.CreateRequest
    by_cases h : StringUtils.ToUpper (StringUtils.Trim method) = "GET"
    · simp only [h, beq_self_eq_true, if_true]
      apply String.ext
      simp [String.data_append]
    · have hb : (StringUtils.ToUpper (StringUtils.Trim method) == "GET") = false := by
        simpa using h
      simp only [hb, h, if_false]
      apply String.ext
      simp [String.data_append]
  · intro self
    refine ⟨"POST /p/ HTTP/1.0\r\nHost:" ++ self.hostAddress ++ "\r\n", ?_⟩
    have hm : StringUtils.ToUpper (StringUtils.Trim "POST") = "POST" := by decide
    have h1 : StringUtils.Trim "/p" = "/p" := by decide
    have h2 : StringUtils.Trim "1.0" = "1.0" := by decide
    have hb : ("POST" == "GET") = false := by decide
    unfold HttpClient.CreateRequest
    simp only [hm, h1, h2, hb]
    apply String.ext
    simp [String.data_append]

/-- C2: on the chunks "abc" and "de" followed by a zero-byte receive, with no
transport failure, `HttpClient::SendHttpRequest` returns "dec" and not "abcde":
every chunk replaces the response, read from the buffer up to the first zero
byte. The single chunk of the loopback test is returned whole. -/
theorem HttpClient.SendHttpRequest_keeps_last_buffer :
    (HttpClient.ctor.SendHttpRequest twoChunks "GET" "/" "1.1").1 = "dec" ∧
    (HttpClient.ctor.SendHttpRequest twoChunks "GET" "/" "1.1").1 ≠ "abc" ++ "de" ∧
    (HttpClient.ctor.SendHttpRequest oneChunk "GET" "/" "1.1").1 =
      "HTTP/1.1 200 OK\r\n\r\nhi" := by
  decide

/-- C3: after a successful `Open` returning the descriptor 3, `Close` leaves
the descriptor in place: `IsOpen()` is still true, and a second `Close` closes
the descriptor 3 again. -/
theorem Socket.Close_keeps_descriptor :
    (Socket.ctor.Open Protocol.TCP Family.IPv4 3).map (fun r => (r.1, r.2.1)) =
        some (true, (⟨3, State.None⟩ : Socket)) ∧
      (Socket.Close ⟨3, State.None⟩).1.IsOpen = true ∧
      (Socket.Close ⟨3, State.None⟩).1.osSocket = 3 ∧
      (Socket.Close ⟨3, State.None⟩).2 = [OsCall.close 3] ∧
      (Socket.Close (Socket.Close ⟨3, State.None⟩).1).2 = [OsCall.close 3] := by
  decide

/-- C4: `FromString` of "1.2.3.4" followed by `ConvertToString` prints sixteen
bytes the parse never wrote, as an IPv6 address, padded with zero bytes to 46
characters; on zeroed memory that is "::" and padding, not "1.2.3.4". -/
theorem Address.FromString_ConvertToString_prints_other_bytes :
    glibc.inet_pton AF_INET "1.2.3.4" = some [1, 2, 3, 4] ∧
    (∀ mem : Nat → Nat,
      (Address.FromString glibc mem "1.2.3.4" 80 Family.None).ConvertToString glibc =
        cWriteInto INET6_ADDRSTRLEN
          (String.mk (inet_ntop6 ((List.range 16).map (fun i => mem (i + 8) % 256))))) ∧
    (Address.FromString glibc zeroMem "1.2.3.4" 80 Family.None).osAddress =
      [1, 2, 0, 80, 0, 0, 0, 0, 0, 0, 0, 0, 0, 0, 0, 0, 0, 0, 0, 0, 0, 0, 0, 0, 0, 0, 0, 0] ∧
    (Address.FromString glibc zeroMem "1.2.3.4" 80 Family.None).ConvertToString glibc =
      cWriteInto INET6_ADDRSTRLEN "::" ∧
    (Address.FromString glibc zeroMem "1.2.3.4" 80 Family.None).ConvertToString glibc ≠
      "1.2.3.4" := by
  refine ⟨by decide, ?_, by decide, by decide, by decide⟩
  intro mem
  rfl

/-- C5: "255.255.255.255" is parsed by `inet_pton`, yet the `Address` that
`FromString` returns has `IsValid()` false, with or without a given family;
the malformed texts "999.999.999.999" and "not-an-ip" give an invalid `Address`
as well. -/
theorem Address.FromString_parsed_but_invalid :
    glibc.inet_pton AF_INET "255.255.255.255" = some [255, 255, 255, 255] ∧
    (∀ (mem : Nat → Nat) (port : Nat),
      (Address.FromString glibc mem "255.255.255.255" port Family.None).IsValid = false) ∧
    (∀ (mem : Nat → Nat) (port : Nat),
      (Address.FromString glibc mem "255.255.255.255" port Family.IPv4).IsValid = false) ∧
    (Address.FromString glibc zeroMem "999.999.999.999" 80 Family.None).IsValid = false ∧
    (Address.FromString glibc zeroMem "not-an-ip" 80 Family.None).IsValid = false := by
  refine ⟨by decide, ?_, ?_, by decide, by decide⟩
  · intro mem port
    exact Address.FromString_parsed_ffff glibc mem _ port _ [255, 255] (by decide)
  · intro mem port
    exact Address.FromString_parsed_ffff glibc mem _ port _ [255, 255] (by decide)

/-- C6: when the resolution of the trimmed, lower-cased host fails or yields no
candidate, `Address::FromDomain` returns an `Address` with `IsValid()` false and
`HttpClient::Connect` returns `InvalidAddress`, leaves the socket as it was and
issues no system call on it. -/
theorem HttpClient.Connect_unresolved (os : Os) (mem : Nat → Nat) (self : HttpClient)
    (host : String)
    (h : (os.getaddrinfo (cString (StringUtils.ToLower (StringUtils.Trim host))) 0 0).1 ≠ 0 ∨
      (os.getaddrinfo (cString (StringUtils.ToLower (StringUtils.Trim host))) 0 0).2 = []) :
    (Address.FromDomain os mem (cString (StringUtils.ToLower (StringUtils.Trim host)))
      HttpClient.HTTP_PORT Protocol.None Family.None).IsValid = false ∧
    (HttpClient.Connect os mem self host).1 = Status.InvalidAddress ∧
    (HttpClient.Connect os mem self host).2.1.socket = self.socket ∧
    (HttpClient.Connect os mem self host).2.2 = [] := by
  have hv := Address.FromDomain_unresolved os mem _ HttpClient.HTTP_PORT h
  refine ⟨hv, ?_, ?_, ?_⟩
  · unfold HttpClient.Connect
    simp only [hv]
    rfl
  · unfold HttpClient.Connect
    simp only [hv]
    rfl
  · unfold HttpClient.Connect
    simp only [hv]
    rfl

theorem HttpClient.Connect_unresolved_witness :
    ((glibc.getaddrinfo (cString (StringUtils.ToLower (StringUtils.Trim " NoSuch.Invalid ")))
        0 0).1 ≠ 0 ∨
      (glibc.getaddrinfo (cString (StringUtils.ToLower (StringUtils.Trim " NoSuch.Invalid ")))
        0 0).2 = []) ∧
    (Address.FromDomain glibc zeroMem
      (cString (StringUtils.ToLower (StringUtils.Trim " NoSuch.Invalid ")))
      HttpClient.HTTP_PORT Protocol.None Family.None).IsValid = false ∧
    (HttpClient.Connect glibc zeroMem HttpClient.ctor " NoSuch.Invalid ").1 =
      Status.InvalidAddress ∧
    (HttpClient.Connect glibc zeroMem HttpClient.ctor " NoSuch.Invalid ").2.1.socket =
      HttpClient.ctor.socket ∧
    (HttpClient.Connect glibc zeroMem HttpClient.ctor " NoSuch.Invalid ").2.2 = [] :=
  ⟨by decide,
    HttpClient.Connect_unresolved glibc zeroMem HttpClient.ctor " NoSuch.Invalid " (by decide)⟩

/-- C7: when the resolution succeeds, `HttpClient::Connect` on a newly
constructed client returns `Success` and leaves the socket unopened and its
state `None`: no `socket` and no `connect` call is issued, and the socket of
any client is left as it was. -/
theorem HttpClient.Connect_success_socket_unopened (os : Os) (mem : Nat → Nat) (host : String)
    (h : (Address.FromDomain os mem (cString (StringUtils.ToLower (StringUtils.Trim host)))
      HttpClient.HTTP_PORT Protocol.None Family.None).IsValid = true) :
    (HttpClient.Connect os mem HttpClient.ctor host).1 = Status.Success ∧
    (HttpClient.Connect os mem HttpClient.ctor host).2.1.socket.IsOpen = false ∧
    (HttpClient.Connect os mem HttpClient.ctor host).2.1.GetState = State.None ∧
    (HttpClient.Connect os mem HttpClient.ctor host).2.2 = [] ∧
    (∀ self : HttpClient, (HttpClient.Connect os mem self host).2.1.socket = self.socket) := by
  refine ⟨?_, ?_, ?_, ?_, ?_⟩
  · unfold HttpClient.Connect
    simp only [h]
    rfl
  · unfold HttpClient.Connect
    simp only [h]
    rfl
  · unfold HttpClient.Connect
    simp only [h]
    rfl
  · unfold HttpClient.Connect
    simp only [h]
    rfl
  · intro self
    unfold HttpClient.Connect
    simp only [h]
    rfl

theorem HttpClient.Connect_success_socket_unopened_witness :
    (Address.FromDomain glibc zeroMem
      (cString (StringUtils.ToLower (StringUtils.Trim "example.com")))
      HttpClient.HTTP_PORT Protocol.None Family.None).IsValid = true ∧
    (HttpClient.Connect glibc zeroMem HttpClient.ctor "example.com").1 = Status.Success ∧
    (HttpClient.Connect glibc zeroMem HttpClient.ctor "example.com").2.1.socket.IsOpen = false ∧
    (HttpClient.Connect glibc zeroMem HttpClient.ctor "example.com").2.1.GetState = State.None ∧
    (HttpClient.Connect glibc zeroMem HttpClient.ctor "example.com").2.2 = [] ∧
    (∀ self : HttpClient,
      (HttpClient.Connect glibc zeroMem self "example.com").2.1.socket = self.socket) :=
  ⟨by decide,
    HttpClient.Connect_success_socket_unopened glibc zeroMem "example.com" (by decide)⟩

/-- C8: on an open, idle socket, with `bind` and `listen` succeeding,
`Socket::Listen` on the wildcard address built for port 80 returns 20480, the
port in network byte order, where `GetPort()` reports 80; on the wildcard
address built for port 0 it returns the invalid-port sentinel although nothing
failed. -/
theorem Socket.Listen_returns_raw_sin_port (mem : Nat → Nat) :
    (Socket.Listen ⟨3, State.None⟩ (Address.MakeBind mem Protocol.TCP Family.IPv4 80) 0 0).map
        (fun r => r.1) = some 20480 ∧
    (Address.MakeBind mem Protocol.TCP Family.IPv4 80).GetPort = 80 ∧
    (Socket.Listen ⟨3, State.None⟩ (Address.MakeBind mem Protocol.TCP Family.IPv4 0) 0 0).map
        (fun r => r.1) = some Address.invalidPort := by
  have h80 := Address.MakeBind_queries mem Protocol.TCP Family.IPv4 80 (by decide)
    (Or.inl rfl) (by decide)
  have h0 := Address.MakeBind_queries mem Protocol.TCP Family.IPv4 0 (by decide)
    (Or.inl rfl) (by decide)
  refine ⟨?_, h80.2.1, ?_⟩
  · rw [Socket.Listen_success _ _ 0 0 (by decide) (by decide) (by decide) (by decide),
      h80.2.2.1]
    decide
  · rw [Socket.Listen_success _ _ 0 0 (by decide) (by decide) (by decide) (by decide),
      h0.2.2.1]
    decide

/-- C9: `Address::FromDomain` never reads its port argument; for "example.com"
and port 80, with the candidate the resolver returns when no service is asked
for, the result is valid and `GetPort()` is 0, not 80. -/
theorem Address.FromDomain_ignores_port :
    (∀ (os : Os) (mem : Nat → Nat) (domain : String) (p q : Nat) (protocol : Protocol)
      (family : Family),
      Address.FromDomain os mem domain p protocol family =
        Address.FromDomain os mem domain q protocol family) ∧
    (glibc.getaddrinfo "example.com" 0 0).1 = 0 ∧
    (Address.FromDomain glibc zeroMem "example.com" 80 Protocol.None Family.None).IsValid =
      true ∧
    (Address.FromDomain glibc zeroMem "example.com" 80 Protocol.None Family.None).GetPort =
      0 ∧
    (Address.FromDomain glibc zeroMem "example.com" 80 Protocol.None Family.None).sin_addr =
      [93, 184, 216, 34] := by
  refine ⟨?_, by decide, by decide, by decide, by decide⟩
  intro os mem domain p q protocol family
  rfl

/-- C10: the wildcard address of `MakeBind` for TCP and port 80 is valid and
reports the port 80, but `GetFamily()` is `None` for IPv4 and for IPv6:
`IsIPv4()` and `IsIPv6()` are both false. -/
theorem Address.MakeBind_family_not_reported (mem : Nat → Nat) :
    (Address.MakeBind mem Protocol.TCP Family.IPv4 80).IsValid = true ∧
    (Address.MakeBind mem Protocol.TCP Family.IPv4 80).GetPort = 80 ∧
    (Address.MakeBind mem Protocol.TCP Family.IPv4 80).sin_addr = [0, 0, 0, 0] ∧
    (Address.MakeBind mem Protocol.TCP Family.IPv4 80).sa_family = AF_INET ∧
    (Address.MakeBind mem Protocol.TCP Family.IPv4 80).GetFamily = Family.None ∧
    (Address.MakeBind mem Protocol.TCP Family.IPv4 80).IsIPv4 = false ∧
    (Address.MakeBind mem Protocol.TCP Family.IPv6 80).IsValid = true ∧
    (Address.MakeBind mem Protocol.TCP Family.IPv6 80).GetPort = 80 ∧
    (Address.MakeBind mem Protocol.TCP Family.IPv6 80).sin6_addr = List.replicate 16 0 ∧
    (Address.MakeBind mem Protocol.TCP Family.IPv6 80).sa_family = AF_INET6 ∧
    (Address.MakeBind mem Protocol.TCP Family.IPv6 80).GetFamily = Family.None ∧
    (Address.MakeBind mem Protocol.TCP Family.IPv6 80).IsIPv6 = false := by
  have h4 := Address.MakeBind_queries mem Protocol.TCP Family.IPv4 80 (by decide)
    (Or.inl rfl) (by decide)
  have h6 := Address.MakeBind_queries mem Protocol.TCP Family.IPv6 80 (by decide)
    (Or.inr rfl) (by decide)
  exact ⟨h4.1, h4.2.1, rfl, rfl, h4.2.2.2.1, h4.2.2.2.2.1,
    h6.1, h6.2.1, rfl, rfl, h6.2.2.2.1, h6.2.2.2.2.2⟩


/-! ## Sequences of `Socket` operations -/

/-- No operation changes a status `None`. -/
theorem Socket.apply_status (op : SocketOp) (s s1 : Socket) (hs : s.status = State.None)
    (h : Socket.apply op s = some s1) : s1.status = State.None := by
  cases op with
  | Open protocol addrFamily fd =>
    simp only [Socket.apply, Socket.Open, LIBPOG_ASSERT] at h
    split at h
    · split at h
      · simp at h
        rw [← h]
        exact hs
      · simp at h
        rw [← h]
        exact hs
    · simp at h
  | Close =>
    simp only [Socket.apply, Socket.Close] at h
    split at h
    · simp at h
      rw [← h]
      exact hs
    · simp at h
      rw [← h]
  | Connect address ret =>
    simp only [Socket.apply, Socket.Connect, LIBPOG_ASSERT] at h
    split at h
    · split at h
      · simp at h
        rw [← h]
        exact hs
      · simp at h
        rw [← h]
        exact hs
    · simp at h
  | Listen address bindRet listenRet =>
    simp only [Socket.apply, Socket.Listen, LIBPOG_ASSERT] at h
    split at h
    · split at h
      · simp at h
        rw [← h]
        exact hs
      · split at h
        · simp at h
          rw [← h]
          exact hs
        · simp at h
          rw [← h]
          exact hs
    · simp at h
  | moveInto =>
    simp only [Socket.apply, Socket.move] at h
    simp at h
    rw [← h]
  | movedFrom =>
    simp only [Socket.apply, Socket.move] at h
    simp at h
    rw [← h]
    exact hs

/-- A sequence of operations keeps a status `None`. -/
theorem Socket.run_status (ops : List SocketOp) (s s1 : Socket) (hs : s.status = State.None)
    (h : Socket.run ops s = some s1) : s1.status = State.None := by
  induction ops generalizing s with
  | nil =>
    simp only [Socket.run] at h
    cases h
    exact hs
  | cons op ops ih =>
    simp only [Socket.run] at h
    cases hop : Socket.apply op s with
    | none => simp [hop] at h
    | some s2 =>
      simp only [hop] at h
      exact ih s2 (Socket.apply_status op s s2 hs hop) h

/-- C12: after every sequence of construction, move construction, `Open`,
`Connect`, `Listen` and `Close`, whatever the system calls return, the status
of the socket is `State::None`: `IsConnected()` and `IsListening()` are false
and `Disconnect` fails its assertion. -/
theorem Socket.status_always_None (ops : List SocketOp) (s : Socket)
    (h : Socket.run ops Socket.ctor = some s) :
    s.status = State.None ∧ s.GetState = State.None ∧ s.IsConnected = false ∧
      s.IsListening = false ∧ s.Disconnect = none := by
  have hs : s.status = State.None := Socket.run_status ops Socket.ctor s rfl h
  refine ⟨hs, hs, ?_, ?_, ?_⟩
  · simp [Socket.IsConnected, hs]
  · simp [Socket.IsListening, hs]
  · simp [Socket.Disconnect, LIBPOG_ASSERT, Socket.IsConnected, hs]

theorem Socket.status_always_None_witness :
    Socket.run
        [SocketOp.Open Protocol.TCP Family.IPv4 3,
          SocketOp.Connect (Address.MakeBind zeroMem Protocol.TCP Family.IPv4 80) 0,
          SocketOp.moveInto,
          SocketOp.Listen (Address.MakeBind zeroMem Protocol.TCP Family.IPv4 80) 0 0]
        Socket.ctor = some ⟨3, State.None⟩ ∧
    ((⟨3, State.None⟩ : Socket).Connect
        (Address.MakeBind zeroMem Protocol.TCP Family.IPv4 80) 0).map (fun r => r.1) =
      some true ∧
    ((⟨3, State.None⟩ : Socket).status = State.None ∧
      (⟨3, State.None⟩ : Socket).GetState = State.None ∧
      (⟨3, State.None⟩ : Socket).IsConnected = false ∧
      (⟨3, State.None⟩ : Socket).IsListening = false ∧
      (⟨3, State.None⟩ : Socket).Disconnect = none) :=
  ⟨by decide, by decide,
    Socket.status_always_None
      [SocketOp.Open Protocol.TCP Family.IPv4 3,
        SocketOp.Connect (Address.MakeBind zeroMem Protocol.TCP Family.IPv4 80) 0,
        SocketOp.moveInto,
        SocketOp.Listen (Address.MakeBind zeroMem Protocol.TCP Family.IPv4 80) 0 0]
      ⟨3, State.None⟩ (by decide)⟩

/-! ## `HttpsClient` -/

/-- A negative `int` stored in a `size_t` is `2^64` plus that value. -/
theorem toSizeT_neg (r : Int) (hneg : r < 0) (hlo : -2147483648 ≤ r) :
    (toSizeT r : Int) = 18446744073709551616 + r := by
  unfold toSizeT
  omega

/-- An `int` stored in a `size_t` is zero only when it is zero. -/
theorem toSizeT_eq_zero (r : Int) (hlo : -2147483648 ≤ r) (hhi : r ≤ 2147483647) :
    toSizeT r = 0 ↔ r = 0 := by
  unfold toSizeT
  omega

/-- The teardown branch of `Receive` is never taken: the only call is the read. -/
theorem HttpsClient.Receive_calls (self : HttpsClient) (r : TlsRead) :
    (self.Receive r).1 = [TlsCall.SSL_read self.sslSocket] := by
  simp [HttpsClient.Receive]

theorem HttpsClient.Receive_size (self : HttpsClient) (r : TlsRead) :
    (self.Receive r).2.Proccess.buffer.size = toSizeT r.ret := by
  simp [HttpsClient.Receive, HttpsClient.Proccess]

theorem HttpsClient.Receive_sslSocket (self : HttpsClient) (r : TlsRead) :
    (self.Receive r).2.Proccess.sslSocket = self.sslSocket := by
  simp [HttpsClient.Receive, HttpsClient.Proccess]

/-- Every run of the receive loop starts with a read on the session of the
client. -/
theorem HttpsClient.receiveLoop_head (script : List TlsRead) (self : HttpsClient) :
    ∃ rest, (HttpsClient.receiveLoop script self).1 = TlsCall.SSL_read self.sslSocket :: rest := by
  cases script with
  | nil => exact ⟨[], by simp [HttpsClient.receiveLoop, HttpsClient.Receive_calls]⟩
  | cons r script =>
    unfold HttpsClient.receiveLoop
    by_cases h : (self.Receive r).2.Proccess.buffer.size > 0
    · exact ⟨_, by simp only [h, if_true, HttpsClient.Receive_calls]; rfl⟩
    · exact ⟨[], by simp only [h, if_false, HttpsClient.Receive_calls]⟩

/-- The loop goes on after a read that stored a non-zero size. -/
theorem HttpsClient.receiveLoop_continue (r : TlsRead) (script : List TlsRead)
    (self : HttpsClient) (h : toSizeT r.ret ≠ 0) :
    HttpsClient.receiveLoop (r :: script) self =
      (TlsCall.SSL_read self.sslSocket ::
          (HttpsClient.receiveLoop script (self.Receive r).2.Proccess).1,
        (HttpsClient.receiveLoop script (self.Receive r).2.Proccess).2) := by
  have hpos : (self.Receive r).2.Proccess.buffer.size > 0 := by
    rw [HttpsClient.Receive_size]
    omega
  rw [HttpsClient.receiveLoop]
  simp only [hpos, if_true, HttpsClient.Receive_calls]
  rfl

/-- The loop ends after a read that stored the size zero. -/
theorem HttpsClient.receiveLoop_stop (r : TlsRead) (script : List TlsRead)
    (self : HttpsClient) (h : toSizeT r.ret = 0) :
    HttpsClient.receiveLoop (r :: script) self =
      ([TlsCall.SSL_read self.sslSocket], (self.Receive r).2.Proccess) := by
  have hz : ¬ (self.Receive r).2.Proccess.buffer.size > 0 := by
    rw [HttpsClient.Receive_size]
    omega
  rw [HttpsClient.receiveLoop]
  simp only [hz, if_false, HttpsClient.Receive_calls]

theorem HttpsClient.HTTPSDisconnect_inOrder (self : HttpsClient) :
    releasedInOrder self.HTTPSDisconnect.1 = true := by
  obtain ⟨⟨⟨fd, status⟩, host, req, resp, buf⟩, ctx, ssl, st, request, response, buffer, cs⟩ :=
    self
  by_cases hfd : fd = INVALID_SOCKET
  · cases st <;>
      simp [HttpsClient.HTTPSDisconnect, HttpClient.Disconnect, Socket.Close, Socket.IsOpen, hfd,
        releasedInOrder, TlsCall.closesHandle, TlsCall.freesSession, TlsCall.freesContext]
  · cases st <;>
      simp [HttpsClient.HTTPSDisconnect, HttpClient.Disconnect, Socket.Close, Socket.IsOpen, hfd,
        releasedInOrder, TlsCall.closesHandle, TlsCall.freesSession, TlsCall.freesContext]

theorem HttpsClient.Init_inOrder (self : HttpsClient) (ctx ssl : Option Nat) (connected : Bool) :
    releasedInOrder (self.Init ctx ssl connected).1 = true := by
  cases ctx with
  | none => rfl
  | some c =>
    cases ssl with
    | none => rfl
    | some s =>
      cases connected with
      | false => rfl
      | true => rfl

/-- A failed `SSL_write` closes the raw handle before it frees the session and
the context. -/
theorem HttpsClient.Send_failure_order (self : HttpsClient) (written : Int) (h : written ≤ 0) :
    (self.Send written).1 =
      [TlsCall.SSL_write self.sslSocket, TlsCall.SSL_shutdown self.sslSocket,
        TlsCall.os (OsCall.close self.clientSocket), TlsCall.freeaddrinfo,
        TlsCall.SSL_free self.sslSocket, TlsCall.SSL_CTX_free self.sslContext,
        TlsCall.exit SOCKET_ERROR] ∧
    releasedInOrder (self.Send written).1 = false := by
  have hw : ¬ written > 0 := by omega
  constructor
  · simp [HttpsClient.Send, hw]
  · simp [HttpsClient.Send, hw, releasedInOrder, TlsCall.closesHandle, TlsCall.freesSession,
      TlsCall.freesContext]

/-- C11: on a failed TLS send (`SSL_write` returns -1) `HttpsClient::Send` closes
the raw handle 3 before it frees the session and the context, so the order
"session, context, raw handle" is broken; `HTTPSDisconnect` and every exit of
`Init` keep that order. -/
theorem HttpsClient.Send_failure_closes_handle_first :
    (HttpsClient.connected.Send (-1)).1 =
      [TlsCall.SSL_write (some 2), TlsCall.SSL_shutdown (some 2),
        TlsCall.os (OsCall.close 3), TlsCall.freeaddrinfo, TlsCall.SSL_free (some 2),
        TlsCall.SSL_CTX_free (some 1), TlsCall.exit (-1)] ∧
    releasedInOrder (HttpsClient.connected.Send (-1)).1 = false ∧
    (HttpsClient.connected.SendHttpsRequest (-1) [] "GET" "/" "1.1").1 =
      (HttpsClient.connected.Send (-1)).1 ∧
    HttpsClient.connected.HTTPSDisconnect.1 =
      [TlsCall.SSL_shutdown (some 2), TlsCall.SSL_free (some 2), TlsCall.SSL_CTX_free (some 1)] ∧
    (∀ self : HttpsClient, releasedInOrder self.HTTPSDisconnect.1 = true) ∧
    (∀ (self : HttpsClient) (ctx ssl : Option Nat) (connected : Bool),
      releasedInOrder (self.Init ctx ssl connected).1 = true) := by
  refine ⟨by decide, by decide, by decide, by decide, ?_, ?_⟩
  · exact HttpsClient.HTTPSDisconnect_inOrder
  · exact HttpsClient.Init_inOrder

/-- C13: when `SSL_read` returns -1, `HttpsClient::Receive` stores 2^64 - 1 in
`buffer.size` and, its test `>= 0` being made on that unsigned value, returns
after the read alone: the teardown it is written to perform never runs,
nothing is shut down, closed or freed; in `SendHttpsRequest` the loop goes on
and the next read follows with the session never freed. -/
theorem HttpsClient.failed_read_frees_nothing :
    (HttpsClient.connected.Receive ⟨-1, []⟩).1 = [TlsCall.SSL_read (some 2)] ∧
    (HttpsClient.connected.Receive ⟨-1, []⟩).2.buffer.size = 18446744073709551615 ∧
    (HttpsClient.connected.SendHttpsRequest 1 [⟨-1, []⟩, ⟨0, []⟩] "GET" "/" "1.1").1 =
      [TlsCall.SSL_write (some 2), TlsCall.SSL_read (some 2), TlsCall.SSL_read (some 2)] ∧
    ((HttpsClient.connected.SendHttpsRequest 1 [⟨-1, []⟩, ⟨0, []⟩] "GET" "/" "1.1").1.any
      TlsCall.freesSession) = false := by
  decide

/-- The receive loop for every `int` result `r` of `SSL_read`: `Receive` makes
the read and nothing else; when `r` is negative `buffer.size` is 2^64 + r,
which is positive; when `r` is not zero the loop goes on with another read on
the same session; when `r` is zero the loop ends. -/
theorem HttpsClient.failed_read_continues_loop (self : HttpsClient) (r : Int)
    (bytes : List Char) (script : List TlsRead)
    (hlo : -2147483648 ≤ r) (hhi : r ≤ 2147483647) :
    (self.Receive ⟨r, bytes⟩).1 = [TlsCall.SSL_read self.sslSocket] ∧
    (r < 0 →
      ((self.Receive ⟨r, bytes⟩).2.Proccess.buffer.size : Int) = 18446744073709551616 + r ∧
      (self.Receive ⟨r, bytes⟩).2.Proccess.buffer.size > 0) ∧
    (r ≠ 0 →
      ∃ rest : List TlsCall,
        (HttpsClient.receiveLoop (⟨r, bytes⟩ :: script) self).1 =
          TlsCall.SSL_read self.sslSocket :: TlsCall.SSL_read self.sslSocket :: rest) ∧
    (r = 0 →
      (HttpsClient.receiveLoop (⟨r, bytes⟩ :: script) self).1 =
        [TlsCall.SSL_read self.sslSocket]) := by
  have hz := toSizeT_eq_zero r hlo hhi
  refine ⟨HttpsClient.Receive_calls self _, ?_, ?_, ?_⟩
  · intro hneg
    rw [HttpsClient.Receive_size]
    have h := toSizeT_neg r hneg hlo
    change ((toSizeT r : Nat) : Int) = 18446744073709551616 + r ∧ toSizeT r > 0
    constructor
    · exact h
    · omega
  · intro hne
    have hnz : toSizeT (TlsRead.mk r bytes).ret ≠ 0 := fun h => hne (hz.mp h)
    rw [HttpsClient.receiveLoop_continue _ script self hnz]
    obtain ⟨rest, hrest⟩ :=
      HttpsClient.receiveLoop_head script (self.Receive ⟨r, bytes⟩).2.Proccess
    refine ⟨rest, ?_⟩
    simp only [hrest, HttpsClient.Receive_sslSocket]
  · intro h0
    have hzero : toSizeT (TlsRead.mk r bytes).ret = 0 := hz.mpr h0
    rw [HttpsClient.receiveLoop_stop _ script self hzero]

theorem HttpsClient.failed_read_continues_loop_witness :
    ((-2147483648 : Int) ≤ -1 ∧ (-1 : Int) ≤ 2147483647) ∧
    ((HttpsClient.connected.Receive ⟨-1, []⟩).1 =
        [TlsCall.SSL_read HttpsClient.connected.sslSocket] ∧
      ((-1 : Int) < 0 →
        ((HttpsClient.connected.Receive ⟨-1, []⟩).2.Proccess.buffer.size : Int) =
            18446744073709551616 + -1 ∧
          (HttpsClient.connected.Receive ⟨-1, []⟩).2.Proccess.buffer.size > 0) ∧
      ((-1 : Int) ≠ 0 →
        ∃ rest : List TlsCall,
          (HttpsClient.receiveLoop (⟨-1, []⟩ :: [⟨0, []⟩]) HttpsClient.connected).1 =
            TlsCall.SSL_read HttpsClient.connected.sslSocket ::
              TlsCall.SSL_read HttpsClient.connected.sslSocket :: rest) ∧
      ((-1 : Int) = 0 →
        (HttpsClient.receiveLoop (⟨-1, []⟩ :: [⟨0, []⟩]) HttpsClient.connected).1 =
          [TlsCall.SSL_read HttpsClient.connected.sslSocket])) :=
  ⟨by decide,
    HttpsClient.failed_read_continues_loop HttpsClient.connected (-1) [] [⟨0, []⟩]
      (by decide) (by decide)⟩

end Net
